import Mathlib

/-!
Shallow embedding of the shared-memory log transport in
src/core/dd_detector.cpp (namespace Daddy): the page codec constants, the
page writer and reader state machines, the typed event encoders
(S / SS / T / ST payload shapes) and the parse primitives.  Machine
integers are modelled as Nat with explicit reductions modulo 2^16 / 2^32
where the C++ code casts through uint16_t / uint32_t.  Bytes of the mapped
file are modelled as Nat lists; a page records its header fields plus the
bytes written past the header since the writer last mapped it (a fresh
file is zero-filled, so unwritten bytes read as 0).
-/

namespace Daddy

/-! ## Constants (LogPageP enums, dd_detector.cpp lines 123-126) -/

def LOG_FILE_SIZE : Nat := 4096 * 256 * 5
def LOG_PAGE_SIZE : Nat := 4096 * 16
def LOG_PAGE_COUNT : Nat := LOG_FILE_SIZE / LOG_PAGE_SIZE
def LOG_UNIT_PACKING : Nat := 4

/-- sizeof(PageHeader): char + char + uint16_t + uint32_t = 8 bytes. -/
def pageHeaderSize : Nat := 8

/-- sizeof(UnitHeader): uint16_t + uint16_t = 4 bytes. -/
def unitHeaderSize : Nat := 4

def U16MOD : Nat := 2 ^ 16
def U32MOD : Nat := 2 ^ 32

/-- The effect of a C++ cast to uint16_t. -/
def uint16 (n : Nat) : Nat := n % U16MOD

/-- Character codes used as sentinels: '#' = 35, '+' = 43, '-' = 45, '/' = 47. -/
def codeMark : Nat := 35
def actLive : Nat := 43
def actClosed : Nat := 45
def actExit : Nat := 47

/-- LogPageP::alignedSize (line 141): uint32_t arithmetic, so the sum
`size + LOG_UNIT_PACKING - 1` wraps modulo 2^32 before the division. -/
def alignedSize (size : Nat) : Nat :=
  (size + LOG_UNIT_PACKING - 1) % U32MOD / LOG_UNIT_PACKING * LOG_UNIT_PACKING

/-! ## Byte-level helpers -/

/-- Little-endian bytes of a uint16 store. -/
def u16le (n : Nat) : List Nat := [n % 256, n / 256 % 256]

/-- Little-endian bytes of an int32 store (two's complement). -/
def i32le (n : Int) : List Nat :=
  let m := (n % (2 ^ 32 : Int)).toNat
  [m % 256, m / 2 ^ 8 % 256, m / 2 ^ 16 % 256, m / 2 ^ 24 % 256]

/-- Little-endian bytes of an int64 store (two's complement). -/
def i64le (n : Int) : List Nat :=
  let m := (n % (2 ^ 64 : Int)).toNat
  [m % 256, m / 2 ^ 8 % 256, m / 2 ^ 16 % 256, m / 2 ^ 24 % 256,
   m / 2 ^ 32 % 256, m / 2 ^ 40 % 256, m / 2 ^ 48 % 256, m / 2 ^ 56 % 256]

/-- Read of a uint16 at the head of a byte sequence (little-endian). -/
def decodeU16 (p : List Nat) : Nat := p.getD 0 0 + 256 * p.getD 1 0

/-! ## Pages -/

/-- One 64 KiB page: the PageHeader fields (code / activity / packingCount /
pageId, lines 147-153) plus `body`, the bytes at offsets
`pageHeaderSize + k` written since the writer last mapped the page.
Unwritten bytes read as 0 (the file is created zero-filled). -/
structure Page where
  code : Nat
  activity : Nat
  packingCount : Nat
  pageId : Nat
  body : List Nat
deriving Repr, DecidableEq

/-- A never-written page of the zero-filled file. -/
def Page.blank : Page := ⟨0, 0, 0, 0, []⟩

/-- Byte of a page at absolute page offset `o ≥ pageHeaderSize`. -/
def pageByte (p : Page) (o : Nat) : Nat := p.body.getD (o - pageHeaderSize) 0

/-! ## Writer state machine (LogPageWriterP, lines 188-274) -/

structure WriterState where
  hasBuffer : Bool
  bufferOffset : Nat
  pageOffset : Nat
  pageId : Nat
  file : List Page
deriving Repr, DecidableEq

/-- LogPageP::_init_ (line 161): null buffer, all offsets 0, over a fresh
zero-filled file of LOG_PAGE_COUNT pages. -/
def WriterState.init : WriterState :=
  ⟨false, 0, 0, 0, List.replicate LOG_PAGE_COUNT Page.blank⟩

/-- The packingCount field written by LogPageWriterP::rewriteHeader
(line 248): `uint16_t((offset - sizeof(PageHeader)) / LOG_UNIT_PACKING)`
with the subtraction performed in uint32_t (wrapping for offset < 8). -/
def headerPackingCount (offset : Nat) : Nat :=
  uint16 ((offset + U32MOD - pageHeaderSize) % U32MOD / LOG_UNIT_PACKING)

/-- LogPageWriterP::rewriteHeader (lines 246-255): overwrite the mapped
page's header with code '#', the given activity and the packingCount
derived from `offset`; returns sizeof(PageHeader) = 8 at the call sites. -/
def rewriteHeader (st : WriterState) (act offset : Nat) : WriterState :=
  let p := st.file.getD st.pageOffset Page.blank
  let p' : Page := { p with code := codeMark, activity := act,
                            packingCount := headerPackingCount offset, pageId := st.pageId }
  { st with file := st.file.set st.pageOffset p' }

/-- Append bytes at the writer's current position of the mapped page. -/
def appendBody (st : WriterState) (bs : List Nat) : WriterState :=
  let p := st.file.getD st.pageOffset Page.blank
  { st with file := st.file.set st.pageOffset { p with body := p.body ++ bs } }

/-- LogPageWriterP::validPage (lines 226-245).  If there is no live page or
the requested space overflows the page: close the live page (stamp '-',
advance the ring index), map the page at the new index and stamp it live.
The fresh stamp passes `offset = sizeof(UnitHeader)`, and the new
bufferOffset is rewriteHeader's return value, sizeof(PageHeader). -/
def validPage (st : WriterState) (space : Nat) : WriterState :=
  if st.hasBuffer = false ∨ LOG_PAGE_SIZE < st.bufferOffset + space then
    let st1 :=
      if st.hasBuffer then
        let stc := rewriteHeader st actClosed st.bufferOffset
        { stc with hasBuffer := false, bufferOffset := 0,
                   pageOffset := (stc.pageOffset + 1) % LOG_PAGE_COUNT,
                   pageId := 0 }
      else st
    let p1 := st1.file.getD st1.pageOffset Page.blank
    let file2 := st1.file.set st1.pageOffset { p1 with body := [] }
    let st2 := { st1 with hasBuffer := true, file := file2 }
    let st3 := rewriteHeader st2 actLive unitHeaderSize
    { st3 with bufferOffset := pageHeaderSize }
  else st

/-- The UnitHeader packingCount computed by LogPageWriterP::writeLock
(line 205): `uint16_t((payloadSize + LOG_UNIT_PACKING - 1) / LOG_UNIT_PACKING)`,
the sum taken in uint32_t. -/
def writeLockPacking (payloadSize : Nat) : Nat :=
  uint16 ((payloadSize + LOG_UNIT_PACKING - 1) % U32MOD / LOG_UNIT_PACKING)

/-- LogPageWriterP::writeLock (lines 199-213): reserve
`sizeof(UnitHeader) + LOG_UNIT_PACKING * packing` bytes via validPage, then
copy the UnitHeader at bufferOffset.  The returned payload pointer is
`bufferOffset + unitHeaderSize` into the mapped page. -/
def writeLock (st : WriterState) (funcId payloadSize : Nat) : WriterState :=
  let st1 := validPage st (unitHeaderSize + LOG_UNIT_PACKING * writeLockPacking payloadSize)
  appendBody st1 (u16le (writeLockPacking payloadSize) ++ u16le (uint16 funcId))

/-- LogPageWriterP::writeUnlock (lines 214-223): set bufferOffset to the
caller's end pointer and republish the page header as live. -/
def writeUnlock (st : WriterState) (endOffset : Nat) : WriterState :=
  rewriteHeader { st with bufferOffset := endOffset } actLive endOffset

/-- One full writeLock / payload-store / writeUnlock bracket.  `payload` is
the byte block the caller lays down after the UnitHeader, up to the end
pointer it hands to writeUnlock (it includes the alignment filler bytes the
code leaves unwritten, which are arbitrary). -/
def writeRecord (st : WriterState) (funcId payloadSize : Nat) (payload : List Nat) : WriterState :=
  let st1 := writeLock st funcId payloadSize
  let st2 := appendBody st1 payload
  writeUnlock st2 (st1.bufferOffset + unitHeaderSize + payload.length)

/-- LogPageWriterP::_quit_ (lines 262-267): if a page is live, stamp it '/'
at the current bufferOffset before unmapping. -/
def writerQuit (st : WriterState) : WriterState :=
  if st.hasBuffer then rewriteHeader st actExit st.bufferOffset else st

/-! ## Event ids and typed encoders (DetectorWriterP, lines 402-469) -/

/-- Modelled from the spec: the FuncID enumeration lives in dd_detector.hpp,
which is not part of src/; section 6 of the spec fixes the 16-bit id space
and suggests these stable assignments, which both endpoints must share. -/
def ScopeBeginST : Nat := 1
def ScopeEndST : Nat := 2
def StampST : Nat := 3
def TraceST : Nat := 4
def ValidST : Nat := 5
def SetValueSS : Nat := 6
def SetValueST : Nat := 7
def AddValueST : Nat := 8

/-- Bytes a string block occupies: `alignedSize(sizeof(uint16_t) + sn + 1)`. -/
def sBlockLen (s : List Nat) : Nat := alignedSize (2 + s.length + 1)

/-- One S payload block as laid down by writeS / writeSS / writeST
(lines 407-410): the uint16_t cast of the length, the string bytes, the
NUL terminator, then `pad` standing for the filler bytes up to the aligned
block size that the code leaves unwritten (arbitrary stale memory);
well-formed when `pad.length = sBlockLen s - (s.length + 3)`. -/
def sBlock (s pad : List Nat) : List Nat :=
  u16le (uint16 s.length) ++ s ++ [0] ++ pad

/-- DetectorWriterP::writeS (lines 402-415). -/
def writeS (st : WriterState) (id : Nat) (s pad : List Nat) : WriterState :=
  writeRecord st id (alignedSize (2 + s.length + 1)) (sBlock s pad)

/-- DetectorWriterP::writeSS (lines 416-436).  The source passes only
`PayloadSize1` — the first block's size — to writeLock (line 420), although
both blocks are stored and the unlock pointer advances past both. -/
def writeSS (st : WriterState) (id : Nat) (s1 pad1 s2 pad2 : List Nat) : WriterState :=
  writeRecord st id (alignedSize (2 + s1.length + 1)) (sBlock s1 pad1 ++ sBlock s2 pad2)

/-- DetectorWriterP::writeT with T = int32_t (lines 437-449). -/
def writeT32 (st : WriterState) (id : Nat) (n : Int) : WriterState :=
  writeRecord st id (alignedSize 4) (i32le n)

/-- DetectorWriterP::writeT with T = int64_t. -/
def writeT64 (st : WriterState) (id : Nat) (n : Int) : WriterState :=
  writeRecord st id (alignedSize 8) (i64le n)

/-- DetectorWriterP::writeST with T = int32_t (lines 450-469); the declared
payload is the sum of both aligned block sizes. -/
def writeST32 (st : WriterState) (id : Nat) (s pad : List Nat) (n : Int) : WriterState :=
  writeRecord st id (alignedSize (2 + s.length + 1) + alignedSize 4) (sBlock s pad ++ i32le n)

/-- DetectorWriterP::writeST with T = int64_t. -/
def writeST64 (st : WriterState) (id : Nat) (s pad : List Nat) (n : Int) : WriterState :=
  writeRecord st id (alignedSize (2 + s.length + 1) + alignedSize 8) (sBlock s pad ++ i64le n)

/-- dDetector::stamp (line 703): writeST(StampST, name, now()). -/
def stamp (st : WriterState) (name pad : List Nat) (t : Int) : WriterState :=
  writeST64 st StampST name pad t

/-- dDetector::setValue(name, value) for strings (line 777). -/
def setValueSSCall (st : WriterState) (name padn value padv : List Nat) : WriterState :=
  writeSS st SetValueSS name padn value padv

/-- dDetector::setValue(name, int32 value) (line 782). -/
def setValueSTCall (st : WriterState) (name pad : List Nat) (v : Int) : WriterState :=
  writeST32 st SetValueST name pad v

/-! ## Reader state machine (LogPageReaderP, lines 278-381) -/

inductive ReadResult where
  | Readed
  | Unreaded
  | ExitProgram
  | LogNotFound
deriving Repr, DecidableEq

structure ReaderState where
  hasBuffer : Bool
  /-- Which page index mBuffer maps (meaningful when hasBuffer; loadPage's
  restore path can leave it different from pageOffset). -/
  bufferPage : Nat
  bufferOffset : Nat
  pageOffset : Nat
  pageId : Nat
  pageBusy : Bool
  pageSize : Nat
deriving Repr, DecidableEq

def ReaderState.init : ReaderState := ⟨false, 0, 0, 0, 0, false, 0⟩

/-- LogPageReaderP::loadPage (lines 339-360): map the page at pageOffset;
if its code byte is '#', adopt it (bufferOffset to the first record,
busy/size from the header) and report ExitProgram for a '/' page, Readed
otherwise; a foreign code byte leaves the state untouched and reports
Unreaded. -/
def loadPage (file : List Page) (st : ReaderState) : ReadResult × ReaderState :=
  let p := file.getD st.pageOffset Page.blank
  if p.code = codeMark then
    let st' : ReaderState :=
      { st with hasBuffer := true, bufferPage := st.pageOffset,
                bufferOffset := pageHeaderSize, pageId := p.pageId,
                pageBusy := p.activity = actLive,
                pageSize := pageHeaderSize + LOG_UNIT_PACKING * p.packingCount }
    (if p.activity = actExit then .ExitProgram else .Readed, st')
  else (.Unreaded, st)

/-- What a reader callback receives: the funcId from the UnitHeader, the
bytes from the payload pointer to the end of the page's tracked body, and
the advertised payload length `LOG_UNIT_PACKING * packingCount`. -/
structure CbEvent where
  funcId : Nat
  payload : List Nat
  length : Nat
deriving Repr, DecidableEq

/-- The record-delivery tail of readOnce (lines 327-335): sample the
UnitHeader at bufferOffset of the mapped page, fire the callback, advance
bufferOffset by the unit's framed size. -/
def readRecord (file : List Page) (st : ReaderState) : ReadResult × ReaderState × Option CbEvent :=
  let p := file.getD st.bufferPage Page.blank
  let packing := pageByte p st.bufferOffset + 256 * pageByte p (st.bufferOffset + 1)
  let fid := pageByte p (st.bufferOffset + 2) + 256 * pageByte p (st.bufferOffset + 3)
  let ev : CbEvent :=
    ⟨fid, p.body.drop (st.bufferOffset + unitHeaderSize - pageHeaderSize),
     LOG_UNIT_PACKING * packing⟩
  (.Readed,
   { st with bufferOffset := st.bufferOffset + unitHeaderSize + LOG_UNIT_PACKING * packing },
   some ev)

/-- LogPageReaderP::readOnce (lines 292-336).  At end of the observed
range: a busy page re-samples its header (ExitProgram on '/', Unreaded if
no new bytes); a closed page advances the ring index and tries loadPage,
restoring the previous pageOffset when that does not yield Readed.
Otherwise one record is delivered. -/
def readOnce (file : List Page) (st : ReaderState) : ReadResult × ReaderState × Option CbEvent :=
  if st.bufferOffset = st.pageSize then
    if st.pageBusy then
      let p := file.getD st.bufferPage Page.blank
      let st1 : ReaderState :=
        { st with pageBusy := p.activity = actLive,
                  pageSize := pageHeaderSize + LOG_UNIT_PACKING * p.packingCount }
      if p.activity = actExit then (.ExitProgram, st1, none)
      else if st.bufferOffset = st1.pageSize then (.Unreaded, st1, none)
      else readRecord file st1
    else
      let oldPageOffset := st.pageOffset
      let st1 := { st with pageOffset := (st.pageOffset + 1) % LOG_PAGE_COUNT }
      let r := loadPage file st1
      if r.1 = .Readed then readRecord file r.2
      else (r.1, { r.2 with pageOffset := oldPageOffset }, none)
  else readRecord file st

/-- LogPageReaderP::open via DetectorReaderP's constructor (lines 281-284,
509-513): loadPage from the initial state, its result discarded. -/
def readerOpen (file : List Page) : ReaderState :=
  (loadPage file ReaderState.init).2

/-! ## Parse primitives (dDetector, lines 797-817) -/

def decodeI32 (p : List Nat) : Int :=
  let m : Nat := p.getD 0 0 % 256 + 256 * (p.getD 1 0 % 256) + 2 ^ 16 * (p.getD 2 0 % 256)
    + 2 ^ 24 * (p.getD 3 0 % 256)
  if m < 2 ^ 31 then (m : Int) else (m : Int) - 2 ^ 32

def decodeI64 (p : List Nat) : Int :=
  let m : Nat := p.getD 0 0 % 256 + 256 * (p.getD 1 0 % 256) + 2 ^ 16 * (p.getD 2 0 % 256)
    + 2 ^ 24 * (p.getD 3 0 % 256) + 2 ^ 32 * (p.getD 4 0 % 256) + 2 ^ 40 * (p.getD 5 0 % 256)
    + 2 ^ 48 * (p.getD 6 0 % 256) + 2 ^ 56 * (p.getD 7 0 % 256)
  if m < 2 ^ 63 then (m : Int) else (m : Int) - 2 ^ 64

/-- dDetector::parseString (lines 811-817): returns the in-place bytes
starting right after the uint16 length prefix, and the cursor advanced by
the aligned block size derived from that prefix. -/
def parseString (p : List Nat) : List Nat × List Nat :=
  (p.drop 2, p.drop (alignedSize (2 + decodeU16 p + 1)))

/-- dDetector::parseInt32 (lines 797-802). -/
def parseInt32 (p : List Nat) : Int × List Nat :=
  (decodeI32 p, p.drop (alignedSize 4))

/-- dDetector::parseInt64 (lines 804-809). -/
def parseInt64 (p : List Nat) : Int × List Nat :=
  (decodeI64 p, p.drop (alignedSize 8))

/-! ## Scope guard (dDetector::Stack, lines 535-547) -/

inductive ScopeEvent where
  | scopeBegin
  | scopeEnd
deriving Repr, DecidableEq

/-- Stack::Stack(const dLiteral&) emits ScopeBeginST (line 535). -/
def stackCtorEmits : List ScopeEvent := [.scopeBegin]

/-- Stack::Stack(Stack&&) moves mName and emits nothing (line 540). -/
def stackMoveCtorEmits : List ScopeEvent := []

/-- Stack::~Stack() emits ScopeEndST unconditionally (line 544); there is
no armed/disarmed flag, so a moved-from guard's destructor also emits. -/
def stackDtorEmits : List ScopeEvent := [.scopeEnd]

/-- Scope events produced by one guard that is move-constructed from
`moves` times: C++ runs the destructor of every constructed object, so the
original construction plus each move-constructed object contributes its
destructor emission. -/
def guardEmitted (moves : Nat) : List ScopeEvent :=
  stackCtorEmits ++ (List.replicate moves stackMoveCtorEmits).flatten
    ++ (List.replicate (moves + 1) stackDtorEmits).flatten

/-! ## Write traces and invariants -/

/-- One complete writeLock / writeUnlock bracket as issued by a typed
encoder: the funcId and declared payloadSize handed to writeLock, and the
payload bytes laid down before the unlock pointer. -/
structure WOp where
  funcId : Nat
  payloadSize : Nat
  payload : List Nat
deriving Repr, DecidableEq

/-- The writer state after a sequence of write brackets from a fresh file. -/
def runWriter (ops : List WOp) : WriterState :=
  ops.foldl (fun st op => writeRecord st op.funcId op.payloadSize op.payload) WriterState.init

/-- A bracket is well-framed when the bytes laid down match the size the
UnitHeader declares (true of writeS / writeT / writeST for in-range sizes;
writeSS stores a second block beyond the declared size) and the framed
record fits a page. -/
abbrev wellFramed (op : WOp) : Prop :=
  op.payload.length = LOG_UNIT_PACKING * writeLockPacking op.payloadSize ∧
  pageHeaderSize + unitHeaderSize + op.payload.length ≤ LOG_PAGE_SIZE

/-- Invariant P2 of the spec for one page: a page advertised live ('+') or
closed ('-') keeps its records inside the 64 KiB page. -/
abbrev pageBound (p : Page) : Prop :=
  p.activity = actLive ∨ p.activity = actClosed →
    pageHeaderSize + LOG_UNIT_PACKING * p.packingCount ≤ LOG_PAGE_SIZE

/-- Structural facts every writer trace maintains, framed or not. -/
abbrev writerBasicInv (st : WriterState) : Prop :=
  (st.hasBuffer = true → pageHeaderSize ≤ st.bufferOffset) ∧
  st.pageOffset < LOG_PAGE_COUNT ∧ st.file.length = LOG_PAGE_COUNT

/-- The invariant preserved by well-framed brackets: basic structure, the
write position inside the page, and the P2 bound on every page. -/
abbrev writerBoundInv (st : WriterState) : Prop :=
  writerBasicInv st ∧ (st.hasBuffer = true → st.bufferOffset ≤ LOG_PAGE_SIZE) ∧
  ∀ i : Nat, pageBound (st.file.getD i Page.blank)

/-! ## Concrete scenario states -/

/-- End-to-end scenario 2 of the spec: setValue("k","v") then
setValue("k", 7) — "k" = [107], "v" = [118]; every block is exactly
4 bytes, so no filler bytes arise. -/
def kvScenario : WriterState :=
  setValueSTCall (setValueSSCall WriterState.init [107] [] [118] []) [107] [] 7

/-- End-to-end scenario 1 of the spec: stamp("A") ("A" = [65], timestamp t),
then the writer destructs, stamping the live page '/'. -/
def stampScenario (t : Int) : WriterState :=
  writerQuit (stamp WriterState.init [65] [] t)

/-- A file for exercising readOnce's advance path: page 0 closed with one
record, page 1 terminal ('/') with one record. -/
def advanceFile : List Page :=
  ((List.replicate LOG_PAGE_COUNT Page.blank).set 0
      ⟨codeMark, actClosed, 4, 0, [3, 0, 9, 0, 1, 0, 65, 0, 0, 0, 0, 0, 0, 0, 0, 0]⟩).set 1
      ⟨codeMark, actExit, 4, 0, [3, 0, 9, 0, 1, 0, 66, 0, 0, 0, 0, 0, 0, 0, 0, 0]⟩

/-- A reader that has fully consumed the closed page 0 of advanceFile. -/
def advanceReader : ReaderState := ⟨true, 0, 24, 0, 0, false, 24⟩


/-! ## Helper lemmas -/

theorem Page.getD_set (l : List Page) (i j : Nat) (a : Page) :
    (l.set i a).getD j Page.blank =
      if i = j ∧ i < l.length then a else l.getD j Page.blank := by
  rcases eq_or_ne i j with rfl | hne
  · by_cases h : i < l.length
    · simp [List.getD, List.getElem?_set_eq_of_lt, h]
    · simp [List.set_eq_of_length_le (le_of_not_lt h), h]
  · simp [List.getD, List.getElem?_set_ne hne, hne]

theorem headerPackingCount_le {off : Nat} (h1 : pageHeaderSize ≤ off) (h2 : off ≤ LOG_PAGE_SIZE) :
    pageHeaderSize + LOG_UNIT_PACKING * headerPackingCount off ≤ LOG_PAGE_SIZE := by
  simp only [headerPackingCount, uint16, U16MOD, U32MOD, pageHeaderSize, LOG_UNIT_PACKING,
    LOG_PAGE_SIZE] at *
  omega

theorem mul_writeLockPacking_of_fit {d : Nat}
    (h : pageHeaderSize + unitHeaderSize + alignedSize d ≤ LOG_PAGE_SIZE) :
    LOG_UNIT_PACKING * writeLockPacking d = alignedSize d := by
  simp only [writeLockPacking, alignedSize, uint16, U16MOD, U32MOD, pageHeaderSize,
    unitHeaderSize, LOG_UNIT_PACKING, LOG_PAGE_SIZE] at *
  omega

@[simp] theorem rewriteHeader_hasBuffer (st : WriterState) (act off : Nat) :
    (rewriteHeader st act off).hasBuffer = st.hasBuffer := rfl

@[simp] theorem rewriteHeader_bufferOffset (st : WriterState) (act off : Nat) :
    (rewriteHeader st act off).bufferOffset = st.bufferOffset := rfl

@[simp] theorem rewriteHeader_pageOffset (st : WriterState) (act off : Nat) :
    (rewriteHeader st act off).pageOffset = st.pageOffset := rfl

@[simp] theorem rewriteHeader_file_length (st : WriterState) (act off : Nat) :
    (rewriteHeader st act off).file.length = st.file.length := by
  simp [rewriteHeader]

@[simp] theorem appendBody_hasBuffer (st : WriterState) (bs : List Nat) :
    (appendBody st bs).hasBuffer = st.hasBuffer := rfl

@[simp] theorem appendBody_bufferOffset (st : WriterState) (bs : List Nat) :
    (appendBody st bs).bufferOffset = st.bufferOffset := rfl

@[simp] theorem appendBody_pageOffset (st : WriterState) (bs : List Nat) :
    (appendBody st bs).pageOffset = st.pageOffset := rfl

@[simp] theorem appendBody_file_length (st : WriterState) (bs : List Nat) :
    (appendBody st bs).file.length = st.file.length := by
  simp [appendBody]

theorem appendBody_getD_activity (st : WriterState) (bs : List Nat) (i : Nat) :
    ((appendBody st bs).file.getD i Page.blank).activity
      = (st.file.getD i Page.blank).activity := by
  unfold appendBody
  rw [Page.getD_set]
  split
  · rename_i h
    simp only [h.1]
  · rfl

theorem appendBody_getD_packingCount (st : WriterState) (bs : List Nat) (i : Nat) :
    ((appendBody st bs).file.getD i Page.blank).packingCount
      = (st.file.getD i Page.blank).packingCount := by
  unfold appendBody
  rw [Page.getD_set]
  split
  · rename_i h
    simp only [h.1]
  · rfl

theorem appendBody_pageBound (st : WriterState) (bs : List Nat) (i : Nat)
    (h : pageBound (st.file.getD i Page.blank)) :
    pageBound ((appendBody st bs).file.getD i Page.blank) := by
  intro ha
  rw [appendBody_getD_packingCount]
  exact h (by rwa [appendBody_getD_activity] at ha)

theorem validPage_props (st : WriterState) (sp : Nat)
    (hbo : st.hasBuffer = true → pageHeaderSize ≤ st.bufferOffset) :
    (validPage st sp).hasBuffer = true ∧
    pageHeaderSize ≤ (validPage st sp).bufferOffset ∧
    (pageHeaderSize + sp ≤ LOG_PAGE_SIZE → (validPage st sp).bufferOffset + sp ≤ LOG_PAGE_SIZE) ∧
    (st.pageOffset < LOG_PAGE_COUNT → (validPage st sp).pageOffset < LOG_PAGE_COUNT) ∧
    (validPage st sp).file.length = st.file.length := by
  unfold validPage
  split
  · rename_i hcond
    by_cases hb : st.hasBuffer = true
    · simp only [hb, if_true, rewriteHeader_pageOffset]
      refine ⟨rfl, le_refl _, fun h => h, fun _ => Nat.mod_lt _ (by decide), ?_⟩
      simp [rewriteHeader, List.length_set]
    · simp only [Bool.not_eq_true] at hb
      simp only [hb, if_false]
      refine ⟨rfl, le_refl _, fun h => h, fun h => h, ?_⟩
      simp [rewriteHeader, List.length_set]
  · rename_i hcond
    simp only [not_or, not_lt] at hcond
    obtain ⟨hb, hle⟩ := hcond
    have hbt : st.hasBuffer = true := by
      cases h : st.hasBuffer
      · exact absurd h hb
      · rfl
    exact ⟨hbt, hbo hbt, fun _ => hle, fun h => h, rfl⟩


theorem validPage_no_trigger (st : WriterState) (sp : Nat)
    (hcond : ¬(st.hasBuffer = false ∨ LOG_PAGE_SIZE < st.bufferOffset + sp)) :
    validPage st sp = st := by
  unfold validPage
  rw [if_neg hcond]

theorem validPage_trigger_live (st : WriterState) (sp : Nat)
    (hcond : st.hasBuffer = false ∨ LOG_PAGE_SIZE < st.bufferOffset + sp)
    (hb : st.hasBuffer = true) :
    validPage st sp =
      (let po' := (st.pageOffset + 1) % LOG_PAGE_COUNT
       let closed : Page := { st.file.getD st.pageOffset Page.blank with
         code := codeMark, activity := actClosed,
         packingCount := headerPackingCount st.bufferOffset, pageId := st.pageId }
       let f1 := st.file.set st.pageOffset closed
       let reset : Page := { f1.getD po' Page.blank with body := [] }
       let f2 := f1.set po' reset
       let live : Page := { f2.getD po' Page.blank with
         code := codeMark, activity := actLive,
         packingCount := headerPackingCount unitHeaderSize, pageId := 0 }
       ⟨true, pageHeaderSize, po', 0, f2.set po' live⟩) := by
  unfold validPage rewriteHeader
  rw [if_pos hcond, if_pos hb]

theorem validPage_trigger_fresh (st : WriterState) (sp : Nat)
    (hb : st.hasBuffer = false) :
    validPage st sp =
      (let reset : Page := { st.file.getD st.pageOffset Page.blank with body := [] }
       let f2 := st.file.set st.pageOffset reset
       let live : Page := { f2.getD st.pageOffset Page.blank with
         code := codeMark, activity := actLive,
         packingCount := headerPackingCount unitHeaderSize, pageId := st.pageId }
       ⟨true, pageHeaderSize, st.pageOffset, st.pageId, f2.set st.pageOffset live⟩) := by
  unfold validPage rewriteHeader
  rw [if_pos (Or.inl hb), if_neg]
  simp [hb]

theorem validPage_pageBound (st : WriterState) (sp : Nat)
    (hbo8 : st.hasBuffer = true → pageHeaderSize ≤ st.bufferOffset)
    (hboM : st.hasBuffer = true → st.bufferOffset ≤ LOG_PAGE_SIZE)
    (hpb : ∀ i : Nat, pageBound (st.file.getD i Page.blank)) :
    ∀ i : Nat, i ≠ (validPage st sp).pageOffset →
      pageBound ((validPage st sp).file.getD i Page.blank) := by
  intro i hi
  by_cases hcond : st.hasBuffer = false ∨ LOG_PAGE_SIZE < st.bufferOffset + sp
  · by_cases hb : st.hasBuffer = true
    · rw [validPage_trigger_live st sp hcond hb] at hi ⊢
      simp only at hi ⊢
      rw [Page.getD_set]
      split
      · rename_i hset
        exact absurd hset.1.symm hi
      · rw [Page.getD_set]
        split
        · rename_i hset
          exact absurd hset.1.symm hi
        · rw [Page.getD_set]
          split
          · rename_i hset
            intro _
            exact headerPackingCount_le (hbo8 hb) (hboM hb)
          · exact hpb i
    · have hbf : st.hasBuffer = false := by
        cases h : st.hasBuffer
        · rfl
        · exact absurd h hb
      rw [validPage_trigger_fresh st sp hbf] at hi ⊢
      simp only at hi ⊢
      rw [Page.getD_set]
      split
      · rename_i hset
        exact absurd hset.1.symm hi
      · rw [Page.getD_set]
        split
        · rename_i hset
          exact absurd hset.1.symm hi
        · exact hpb i
  · rw [validPage_no_trigger st sp hcond]
    exact hpb i

theorem pageBound_blank : pageBound Page.blank := by
  intro ha
  rcases ha with ha | ha <;> simp [Page.blank, actLive, actClosed] at ha

theorem writeUnlock_pageBound (st : WriterState) (e : Nat)
    (h8 : pageHeaderSize ≤ e) (hM : e ≤ LOG_PAGE_SIZE)
    (hpb : ∀ i : Nat, i ≠ st.pageOffset → pageBound (st.file.getD i Page.blank)) :
    ∀ i : Nat, pageBound ((writeUnlock st e).file.getD i Page.blank) := by
  intro i
  unfold writeUnlock rewriteHeader
  simp only
  rw [Page.getD_set]
  split
  · intro _
    exact headerPackingCount_le h8 hM
  · rename_i hset
    by_cases hip : st.pageOffset = i
    · subst hip
      have hlen : st.file.length ≤ st.pageOffset := by
        by_contra hlt
        exact hset ⟨rfl, lt_of_not_le hlt⟩
      have hd : st.file.getD st.pageOffset Page.blank = Page.blank := by
        simp [List.getD, List.getElem?_eq_none hlen]
      rw [hd]
      exact pageBound_blank
    · exact hpb i (fun he => hip he.symm)

theorem writeRecord_basicInv (st : WriterState) (fid d : Nat) (b : List Nat)
    (h : writerBasicInv st) : writerBasicInv (writeRecord st fid d b) := by
  obtain ⟨h8, hpo, hlen⟩ := h
  obtain ⟨hvb, hv8, hvfit, hvpo, hvlen⟩ :=
    validPage_props st (unitHeaderSize + LOG_UNIT_PACKING * writeLockPacking d) h8
  unfold writeRecord writeLock writeUnlock
  refine ⟨?_, ?_, ?_⟩
  · intro _
    simp only [rewriteHeader_bufferOffset, appendBody_bufferOffset]
    simp only [pageHeaderSize] at hv8 ⊢
    omega
  · simp only [rewriteHeader_pageOffset, appendBody_pageOffset]
    exact hvpo hpo
  · simp only [rewriteHeader_file_length, appendBody_file_length]
    rw [hvlen]
    exact hlen

theorem pageHeaderSize_eq : pageHeaderSize = 8 := rfl

theorem unitHeaderSize_eq : unitHeaderSize = 4 := rfl

theorem LOG_PAGE_SIZE_eq : LOG_PAGE_SIZE = 65536 := rfl

theorem LOG_PAGE_COUNT_eq : LOG_PAGE_COUNT = 80 := by decide

theorem LOG_UNIT_PACKING_eq : LOG_UNIT_PACKING = 4 := rfl

@[simp] theorem writeLock_bufferOffset (st : WriterState) (fid d : Nat) :
    (writeLock st fid d).bufferOffset
      = (validPage st (unitHeaderSize + LOG_UNIT_PACKING * writeLockPacking d)).bufferOffset := rfl

@[simp] theorem writeLock_pageOffset (st : WriterState) (fid d : Nat) :
    (writeLock st fid d).pageOffset
      = (validPage st (unitHeaderSize + LOG_UNIT_PACKING * writeLockPacking d)).pageOffset := rfl

theorem writeRecord_boundInv (st : WriterState) (fid d : Nat) (b : List Nat)
    (hw : wellFramed ⟨fid, d, b⟩) (h : writerBoundInv st) :
    writerBoundInv (writeRecord st fid d b) := by
  obtain ⟨⟨h8, hpo, hlen⟩, hM, hpb⟩ := h
  obtain ⟨hwf, hwfit⟩ := hw
  simp only at hwf hwfit
  obtain ⟨hvb, hv8, hvfit, hvpo, hvlen⟩ :=
    validPage_props st (unitHeaderSize + LOG_UNIT_PACKING * writeLockPacking d) h8
  have hfit2 := hvfit (by
    rw [pageHeaderSize_eq, unitHeaderSize_eq, LOG_PAGE_SIZE_eq, LOG_UNIT_PACKING_eq]
    rw [LOG_UNIT_PACKING_eq] at hwf
    rw [pageHeaderSize_eq, unitHeaderSize_eq, LOG_PAGE_SIZE_eq] at hwfit
    omega)
  set stV := validPage st (unitHeaderSize + LOG_UNIT_PACKING * writeLockPacking d) with hstV
  have hbo : (writeRecord st fid d b).bufferOffset
      = stV.bufferOffset + unitHeaderSize + b.length := rfl
  rw [LOG_UNIT_PACKING_eq] at hwf
  rw [pageHeaderSize_eq, unitHeaderSize_eq, LOG_PAGE_SIZE_eq] at hwfit
  rw [unitHeaderSize_eq, LOG_PAGE_SIZE_eq, LOG_UNIT_PACKING_eq] at hfit2
  rw [pageHeaderSize_eq] at hv8
  refine ⟨writeRecord_basicInv st fid d b ⟨h8, hpo, hlen⟩, ?_, ?_⟩
  · intro _
    rw [hbo, unitHeaderSize_eq, LOG_PAGE_SIZE_eq]
    omega
  · intro i
    refine writeUnlock_pageBound _ _ ?_ ?_ ?_ i
    · simp only [appendBody_bufferOffset, writeLock_bufferOffset]
      rw [← hstV, pageHeaderSize_eq, unitHeaderSize_eq]
      omega
    · simp only [appendBody_bufferOffset, writeLock_bufferOffset]
      rw [← hstV, LOG_PAGE_SIZE_eq, unitHeaderSize_eq]
      omega
    · intro j hj
      simp only [appendBody_pageOffset, writeLock_pageOffset] at hj
      refine appendBody_pageBound _ _ _ (appendBody_pageBound _ _ _ ?_)
      exact validPage_pageBound st _ h8 hM hpb j hj

theorem writerBasicInv_init : writerBasicInv WriterState.init := by
  refine ⟨fun h => by simp [WriterState.init] at h, by decide, by decide⟩

theorem init_getD_blank (i : Nat) :
    WriterState.init.file.getD i Page.blank = Page.blank := by
  show (List.replicate LOG_PAGE_COUNT Page.blank).getD i Page.blank = Page.blank
  rcases lt_or_ge i LOG_PAGE_COUNT with h | h
  · simp [List.getD, List.getElem?_replicate, h]
  · have hlen : (List.replicate LOG_PAGE_COUNT Page.blank).length ≤ i := by
      simpa using h
    simp [List.getD, List.getElem?_eq_none hlen]

theorem writerBoundInv_init : writerBoundInv WriterState.init := by
  refine ⟨writerBasicInv_init, fun h => by simp [WriterState.init] at h, fun i => ?_⟩
  rw [init_getD_blank]
  exact pageBound_blank

theorem runWriter_basicInv (ops : List WOp) : writerBasicInv (runWriter ops) := by
  suffices haux : ∀ (l : List WOp) (st : WriterState), writerBasicInv st →
      writerBasicInv
        (l.foldl (fun st op => writeRecord st op.funcId op.payloadSize op.payload) st) by
    exact haux ops WriterState.init writerBasicInv_init
  intro l
  induction l with
  | nil => exact fun st hst => hst
  | cons op tl ih =>
      intro st hst
      exact ih _ (writeRecord_basicInv st op.funcId op.payloadSize op.payload hst)

theorem runWriter_boundInv (ops : List WOp) (h : ∀ op ∈ ops, wellFramed op) :
    writerBoundInv (runWriter ops) := by
  suffices haux : ∀ (l : List WOp) (st : WriterState), writerBoundInv st →
      (∀ op ∈ l, wellFramed op) →
      writerBoundInv
        (l.foldl (fun st op => writeRecord st op.funcId op.payloadSize op.payload) st) by
    exact haux ops WriterState.init writerBoundInv_init h
  intro l
  induction l with
  | nil => exact fun st hst _ => hst
  | cons op tl ih =>
      intro st hst hall
      refine ih _ ?_ (fun o ho => hall o (List.mem_cons_of_mem _ ho))
      exact writeRecord_boundInv st op.funcId op.payloadSize op.payload
        (hall op (List.mem_cons_self _ _)) hst

/-! ## Claim theorems -/

/-- C1: the claim says every encoder round-trips with the reader advancing
to the start of the next record, and in particular setValue("k","v")
followed by setValue("k", 7) decodes as SetValueSS("k","v") then
SetValueST("k", 7).  Evaluating the embedded code on exactly that input:
writeSS hands writeLock only its first block's size (line 420), so the
first callback advertises length 4 (one S-block) and the reader advances
to page offset 16 — inside the 12-byte record, whose true next-record
boundary is offset 20 where the SetValueST UnitHeader [2,0,7,0] sits —
and the second callback decodes the "v" S-block bytes as a UnitHeader,
delivering funcId 118, not SetValueST. -/
theorem c1_writeSS_framing_bug :
    (readOnce kvScenario.file (readerOpen kvScenario.file)).1 = .Readed ∧
    ((readOnce kvScenario.file (readerOpen kvScenario.file)).2.2.map CbEvent.funcId
      = some SetValueSS) ∧
    ((readOnce kvScenario.file (readerOpen kvScenario.file)).2.2.map CbEvent.length
      = some (LOG_UNIT_PACKING * 1)) ∧
    (readOnce kvScenario.file (readerOpen kvScenario.file)).2.1.bufferOffset = 16 ∧
    ((kvScenario.file.getD 0 Page.blank).body.drop 12).take 4 = [2, 0, 7, 0] ∧
    ((readOnce kvScenario.file
        (readOnce kvScenario.file (readerOpen kvScenario.file)).2.1).2.2.map CbEvent.funcId
      = some 118) ∧
    ¬ ((readOnce kvScenario.file
        (readOnce kvScenario.file (readerOpen kvScenario.file)).2.1).2.2.map CbEvent.funcId
      = some SetValueST) := by
  decide

/-- C2 counterexample: with the writer already exited after stamp("A"), a
fresh reader's second readOnce returns Unreaded, not ExitProgram as the
claim states: DetectorReaderP's open discards loadPage's ExitProgram
result, the terminated page is adopted as non-busy, and the second call
takes the advance path onto the uninitialized page 1. -/
theorem c2_counterexample :
    (readOnce (stampScenario 0).file
        (readOnce (stampScenario 0).file (readerOpen (stampScenario 0).file)).2.1).1
      = .Unreaded ∧
    ¬ ((readOnce (stampScenario 0).file
        (readOnce (stampScenario 0).file (readerOpen (stampScenario 0).file)).2.1).1
      = .ExitProgram) := by
  decide

/-- C3 counterexample: the claim demands the P2 bound at every instant,
including between writeLock and writeUnlock right after a rotation.  At
the instant after the rotation inside the second record's writeLock
(before its writeUnlock), the freshly mapped page 1 is stamped live with
packingCount 65535 — rewriteHeader is passed offset sizeof(UnitHeader),
whose uint32 subtraction of sizeof(PageHeader) underflows — so a '+' page
violates sizeof(PageHeader) + packingCount*4 ≤ LOG_PAGE_SIZE. -/
theorem c3_counterexample :
    ((writeLock (writeRecord WriterState.init StampST 12 (sBlock [65] [] ++ i64le 0))
        AddValueST 65600).file.getD 1 Page.blank).activity = actLive ∧
    LOG_PAGE_SIZE < pageHeaderSize + LOG_UNIT_PACKING *
      ((writeLock (writeRecord WriterState.init StampST 12 (sBlock [65] [] ++ i64le 0))
        AddValueST 65600).file.getD 1 Page.blank).packingCount := by
  decide

/-- C4: the claim (spec section 4.3 step 3) says a freshly rotated page is
stamped with activity '+' and packingCount = 0 and the writer's
bufferOffset becomes sizeof(PageHeader).  The code stamps activity '+'
and sets bufferOffset = 8 as claimed, but passes offset =
sizeof(UnitHeader) to rewriteHeader, so the stored packingCount is
uint16((4 - 8)/4) computed in uint32 arithmetic = 65535, not 0 — the slip
the spec itself flags in section 9. -/
theorem c4_rotation_stamp_bug :
    ((writeLock WriterState.init StampST 12).file.getD 0 Page.blank).activity = actLive ∧
    (writeLock WriterState.init StampST 12).bufferOffset = pageHeaderSize ∧
    ((writeLock WriterState.init StampST 12).file.getD 0 Page.blank).packingCount
      = headerPackingCount unitHeaderSize ∧
    ((writeLock WriterState.init StampST 12).file.getD 0 Page.blank).packingCount = 65535 ∧
    ¬ ((writeLock WriterState.init StampST 12).file.getD 0 Page.blank).packingCount = 0 := by
  decide

/-- C5: the claim says a moved-from guard is inert so each ScopeBeginST is
matched by exactly one ScopeEndST regardless of moves.  In the code the
move constructor only moves mName and ~Stack emits ScopeEndST
unconditionally, so a guard that is moved once produces one ScopeBeginST
and two ScopeEndST emissions (both destructors fire). -/
theorem c5_moved_guard_double_end :
    (guardEmitted 0).count ScopeEvent.scopeBegin = 1 ∧
    (guardEmitted 0).count ScopeEvent.scopeEnd = 1 ∧
    (guardEmitted 1).count ScopeEvent.scopeBegin = 1 ∧
    (guardEmitted 1).count ScopeEvent.scopeEnd = 2 ∧
    ¬ (guardEmitted 1).count ScopeEvent.scopeEnd = 1 := by
  decide

/-- C6 counterexample: the claim asserts packingCount * 4 =
alignedSize(declaredPayloadSize) for every record framed by writeLock.
For declaredPayloadSize = 262144 the uint16_t cast truncates
(262144 + 3)/4 = 65536 to 0, so the UnitHeader's packingCount * 4 = 0
while alignedSize(262144) = 262144. -/
theorem c6_counterexample :
    LOG_UNIT_PACKING * writeLockPacking 262144 = 0 ∧
    alignedSize 262144 = 262144 ∧
    ¬ (LOG_UNIT_PACKING * writeLockPacking 262144 = alignedSize 262144) := by
  decide

/-- C7 counterexample: the claim's consequence "a subsequent readOnce call
retries from the same position" fails when the next page is terminal:
readOnce returns loadPage's ExitProgram and restores pageOffset, but
loadPage has already adopted the terminal page (buffer, bufferOffset 8,
pageSize re-derived), so the post state differs from the pre state and
the subsequent call delivers a record (Readed) from the adopted page
instead of repeating the failed advance. -/
theorem c7_counterexample :
    (readOnce advanceFile advanceReader).1 = .ExitProgram ∧
    (readOnce advanceFile advanceReader).2.1.pageOffset = advanceReader.pageOffset ∧
    ¬ ((readOnce advanceFile advanceReader).2.1 = advanceReader) ∧
    (readOnce advanceFile (readOnce advanceFile advanceReader).2.1).1 = .Readed ∧
    ¬ ((readOnce advanceFile (readOnce advanceFile advanceReader).2.1).1
      = .ExitProgram) := by
  decide

theorem writerQuit_eq_of_hasBuffer (st : WriterState) (h : st.hasBuffer = true) (off : Nat)
    (hoff : st.bufferOffset = off) : writerQuit st = rewriteHeader st actExit off := by
  unfold writerQuit
  rw [if_pos h, hoff]

/-- C2 amended: if the writer emits stamp("A") and exits cleanly (its
destructor stamping the page '/'), a fresh reader's first readOnce
delivers exactly one StampST record whose payload parses back to "A" with
its NUL terminator followed by the 8 timestamp bytes, returning Readed —
but the next readOnce returns Unreaded, not ExitProgram: open discards
the ExitProgram that loadPage produced for the terminal page, and the
advance path then lands on the uninitialized page 1.  ExitProgram
surfaces only when a page observed busy re-samples to '/', or when the
advance path itself loads a '/' page. -/
theorem c2_fresh_reader_after_exit (t : Int) :
    (readOnce (stampScenario t).file (readerOpen (stampScenario t).file)).1 = .Readed ∧
    ((readOnce (stampScenario t).file (readerOpen (stampScenario t).file)).2.2.map
        CbEvent.funcId = some StampST) ∧
    ((readOnce (stampScenario t).file (readerOpen (stampScenario t).file)).2.2.map
        (fun e => (parseString e.payload).1.take 2) = some [65, 0]) ∧
    ((readOnce (stampScenario t).file (readerOpen (stampScenario t).file)).2.2.map
        CbEvent.payload = some ([1, 0, 65, 0] ++ i64le t)) ∧
    (readOnce (stampScenario t).file
        (readOnce (stampScenario t).file (readerOpen (stampScenario t).file)).2.1).1
      = .Unreaded := by
  have hlen : (sBlock [65] [] ++ i64le t).length = 12 := rfl
  have hbo : (writeLock WriterState.init StampST 12).bufferOffset = 8 := rfl
  have hfile : (stampScenario t).file
      = (List.replicate LOG_PAGE_COUNT Page.blank).set 0
          ⟨codeMark, actExit, 4, 0, [3, 0, 3, 0, 1, 0, 65, 0] ++ i64le t⟩ := by
    show (writerQuit (writeUnlock
        (appendBody (writeLock WriterState.init StampST 12) (sBlock [65] [] ++ i64le t))
        ((writeLock WriterState.init StampST 12).bufferOffset + unitHeaderSize
          + (sBlock [65] [] ++ i64le t).length))).file = _
    rw [hlen, hbo]
    rw [show (8 : Nat) + unitHeaderSize + 12 = 24 from rfl]
    rw [writerQuit_eq_of_hasBuffer _ rfl 24 rfl]
    rfl
  rw [hfile]
  exact ⟨rfl, rfl, rfl, rfl, rfl⟩

/-- C10: both endpoints start the ring at index 0.  The writer initializes
pageOffset to 0 and its very first write bracket — the initial validPage
running with no live buffer — maps page 0 without advancing, leaving the
record's UnitHeader and payload as page 0's first bytes; a freshly
constructed reader has pageOffset 0 and its open's loadPage examines page
0 (it adopts or rejects based on page 0's code byte, keeping pageOffset
0). -/
theorem c10_ring_starts_at_page_zero :
    WriterState.init.pageOffset = 0 ∧
    (∀ (fid d : Nat) (payload : List Nat),
       (writeRecord WriterState.init fid d payload).pageOffset = 0 ∧
       ((writeRecord WriterState.init fid d payload).file.getD 0 Page.blank).body
         = (u16le (writeLockPacking d) ++ u16le (uint16 fid)) ++ payload) ∧
    ReaderState.init.pageOffset = 0 ∧
    (∀ file : List Page,
       (readerOpen file).pageOffset = 0 ∧
       ((loadPage file ReaderState.init).1 ≠ .Unreaded ↔
         (file.getD 0 Page.blank).code = codeMark)) := by
  refine ⟨rfl, fun fid d payload => ⟨rfl, rfl⟩, rfl, fun file => ⟨?_, ?_⟩⟩
  · show (loadPage file ReaderState.init).2.pageOffset = 0
    unfold loadPage
    dsimp only
    split
    · rfl
    · rfl
  · unfold loadPage
    dsimp only [ReaderState.init]
    by_cases hc : (file.getD 0 Page.blank).code = codeMark
    · rw [if_pos hc]
      constructor
      · intro _
        exact hc
      · intro _
        split <;> intro h <;> cases h
    · rw [if_neg hc]
      constructor
      · intro h
        exact absurd rfl h
      · intro h
        exact absurd h hc

/-- C3 amended: after every completed sequence of write brackets that are
well-framed (the bytes laid down match the UnitHeader's declared
4·packingCount — true of writeS / writeT / writeST for in-range sizes —
and the framed record fits a page), every page whose activity byte is '+'
or '-' satisfies sizeof(PageHeader) + packingCount*4 ≤ LOG_PAGE_SIZE.
The bound holds after each writeUnlock and page-close stamp, but not at
every instant: between a rotation's fresh '+' stamp inside writeLock and
that record's writeUnlock the new page reads packingCount 65535 (see the
counterexample), and writeSS's extra unreckoned block can push
bufferOffset past the bound. -/
theorem c3_page_bound_after_completed_writes (ops : List WOp)
    (h : ∀ op ∈ ops, wellFramed op) :
    ∀ i : Nat, pageBound ((runWriter ops).file.getD i Page.blank) :=
  (runWriter_boundInv ops h).2.2

theorem c3_page_bound_witness :
    pageBound ((runWriter [⟨3, 12, sBlock [65] [] ++ i64le 0⟩]).file.getD 0 Page.blank) :=
  c3_page_bound_after_completed_writes [⟨3, 12, sBlock [65] [] ++ i64le 0⟩] (by decide) 0

/-- C6 amended: alignedSize n = ((n + 3) / 4) * 4 holds in plain (non
wrapping) arithmetic whenever n + 3 stays below 2^32, and for every
record whose declared payloadSize is at most 262140 — so that the uint16
cast of (payloadSize + 3)/4 does not truncate — the UnitHeader written by
writeLock carries the given 16-bit funcId and a packingCount with
packingCount * 4 = alignedSize(payloadSize); beyond 262140 the cast
truncates (see the counterexample). -/
theorem c6_alignment (n d fid : Nat) (hn : n + 3 < U32MOD) (hd : d ≤ 262140)
    (hfid : fid < U16MOD) :
    alignedSize n = (n + 3) / 4 * 4 ∧
    LOG_UNIT_PACKING * writeLockPacking d = alignedSize d ∧
    decodeU16 (u16le (uint16 fid)) = fid := by
  refine ⟨?_, ?_, ?_⟩
  · simp only [alignedSize, LOG_UNIT_PACKING, U32MOD] at *
    omega
  · simp only [writeLockPacking, alignedSize, uint16, U16MOD, U32MOD, LOG_UNIT_PACKING] at *
    omega
  · simp only [decodeU16, u16le, uint16, U16MOD, List.getD_cons_zero, List.getD_cons_succ] at *
    omega

theorem c6_alignment_witness :
    5 + 3 < U32MOD ∧ (12 : Nat) ≤ 262140 ∧ 7 < U16MOD ∧
    (alignedSize 5 = (5 + 3) / 4 * 4 ∧
     LOG_UNIT_PACKING * writeLockPacking 12 = alignedSize 12 ∧
     decodeU16 (u16le (uint16 7)) = 7) :=
  ⟨by decide, by decide, by decide, c6_alignment 5 12 7 (by decide) (by decide) (by decide)⟩

theorem loadPage_unreaded_state (file : List Page) (st : ReaderState)
    (h : (loadPage file st).1 = .Unreaded) : (loadPage file st).2 = st := by
  unfold loadPage at h ⊢
  dsimp only at h ⊢
  by_cases hc : (file.getD st.pageOffset Page.blank).code = codeMark
  · rw [if_pos hc] at h
    dsimp only at h
    split at h <;> cases h
  · rw [if_neg hc]

/-- C7 amended: when readOnce has fully consumed a closed (non-busy) page
and advances pageOffset in the ring, a loadPage outcome other than Readed
makes readOnce restore the previous pageOffset, return that outcome, and
fire no callback; when the outcome is Unreaded (uninitialized next page)
the entire reader state is unchanged, so a subsequent call retries from
the same position.  When the outcome is ExitProgram the terminal page has
already been adopted into the buffer state (see the counterexample), so
only pageOffset — not the full position — is restored. -/
theorem c7_restore_on_load_failure (file : List Page) (st : ReaderState)
    (hend : st.bufferOffset = st.pageSize) (hbusy : st.pageBusy = false) :
    (¬ (loadPage file { st with pageOffset := (st.pageOffset + 1) % LOG_PAGE_COUNT }).1
        = .Readed →
      (readOnce file st).1
        = (loadPage file { st with pageOffset := (st.pageOffset + 1) % LOG_PAGE_COUNT }).1 ∧
      (readOnce file st).2.1.pageOffset = st.pageOffset ∧
      (readOnce file st).2.2 = none) ∧
    ((loadPage file { st with pageOffset := (st.pageOffset + 1) % LOG_PAGE_COUNT }).1
        = .Unreaded →
      (readOnce file st).2.1 = st) := by
  have hro : readOnce file st
      = (if (loadPage file { st with pageOffset := (st.pageOffset + 1) % LOG_PAGE_COUNT }).1
            = .Readed then
          readRecord file
            (loadPage file { st with pageOffset := (st.pageOffset + 1) % LOG_PAGE_COUNT }).2
        else
          ((loadPage file { st with pageOffset := (st.pageOffset + 1) % LOG_PAGE_COUNT }).1,
           { (loadPage file
                { st with pageOffset := (st.pageOffset + 1) % LOG_PAGE_COUNT }).2 with
             pageOffset := st.pageOffset }, none)) := by
    unfold readOnce
    rw [if_pos hend]
    simp only [hbusy, Bool.false_eq_true, if_false]
  constructor
  · intro hr
    rw [hro, if_neg hr]
    exact ⟨rfl, rfl, rfl⟩
  · intro hu
    have hst2 := loadPage_unreaded_state file
      { st with pageOffset := (st.pageOffset + 1) % LOG_PAGE_COUNT } hu
    rw [hro, if_neg (by rw [hu]; intro h; cases h), hst2]

theorem c7_restore_witness :
    (loadPage (List.replicate LOG_PAGE_COUNT Page.blank)
        { advanceReader with pageOffset := (advanceReader.pageOffset + 1) % LOG_PAGE_COUNT }).1
      = .Unreaded ∧
    (readOnce (List.replicate LOG_PAGE_COUNT Page.blank) advanceReader).2.1 = advanceReader :=
  ⟨by decide,
   (c7_restore_on_load_failure (List.replicate LOG_PAGE_COUNT Page.blank) advanceReader
     rfl rfl).2 (by decide)⟩

/-- C8: from any reachable writer state, a writeLock whose declared
payload fits — sizeof(PageHeader) + sizeof(UnitHeader) +
alignedSize(payloadSize) ≤ LOG_PAGE_SIZE — places the whole framed record
(UnitHeader at bufferOffset, payload after it) at offsets in
[sizeof(PageHeader), LOG_PAGE_SIZE) of the current page; and writeLock
performs no upper-bound rejection: an oversized declaration (65600 bytes)
still stamps the page and hands out a span past the page end. -/
theorem c8_write_span_in_page :
    (∀ (ops : List WOp) (fid d : Nat),
       pageHeaderSize + unitHeaderSize + alignedSize d ≤ LOG_PAGE_SIZE →
       pageHeaderSize ≤ (writeLock (runWriter ops) fid d).bufferOffset ∧
       (writeLock (runWriter ops) fid d).bufferOffset + unitHeaderSize + alignedSize d
         ≤ LOG_PAGE_SIZE) ∧
    ((writeLock WriterState.init StampST 65600).bufferOffset = pageHeaderSize ∧
     LOG_PAGE_SIZE < (writeLock WriterState.init StampST 65600).bufferOffset + unitHeaderSize
       + LOG_UNIT_PACKING * writeLockPacking 65600) := by
  constructor
  · intro ops fid d hfit
    have h8 := (runWriter_basicInv ops).1
    obtain ⟨hvb, hv8, hvfit, hvpo, hvlen⟩ :=
      validPage_props (runWriter ops) (unitHeaderSize + LOG_UNIT_PACKING * writeLockPacking d) h8
    have hmul := mul_writeLockPacking_of_fit hfit
    rw [← hmul] at hfit
    have hfit2 := hvfit (by omega)
    rw [writeLock_bufferOffset]
    refine ⟨hv8, ?_⟩
    rw [← hmul]
    omega
  · exact ⟨by decide, by decide⟩

theorem c8_write_span_witness :
    pageHeaderSize ≤ (writeLock (runWriter []) 3 12).bufferOffset ∧
    (writeLock (runWriter []) 3 12).bufferOffset + unitHeaderSize + alignedSize 12
      ≤ LOG_PAGE_SIZE :=
  c8_write_span_in_page.1 [] 3 12 (by decide)

/-- C9: every S-block stores uint16_t(sn) as its length prefix while
copying all sn bytes — the stored prefix is sn mod 2^16 in general, equal
to sn exactly when sn < 65536, in which case parseString's cursor advance
alignedSize(2 + prefix + 1) equals the encoded block size and lands on
the following bytes; and writeLock's UnitHeader packingCount is the
uint16_t truncation of (payloadSize + 3) / 4. -/
theorem c9_string_length_truncation :
    (∀ s pad : List Nat, decodeU16 (sBlock s pad) = s.length % U16MOD) ∧
    (∀ s pad rest : List Nat, s.length < U16MOD →
       pad.length = sBlockLen s - (s.length + 3) →
       decodeU16 (sBlock s pad ++ rest) = s.length ∧
       (parseString (sBlock s pad ++ rest)).2 = rest) ∧
    (∀ d : Nat, d + 3 < U32MOD → writeLockPacking d = (d + 3) / 4 % U16MOD) := by
  refine ⟨?_, ?_, ?_⟩
  · intro s pad
    simp only [sBlock, u16le, uint16, U16MOD, decodeU16, List.cons_append,
      List.getD_cons_zero, List.getD_cons_succ]
    omega
  · intro s pad rest hlen hpad
    have hdec : decodeU16 (sBlock s pad ++ rest) = s.length := by
      simp only [sBlock, u16le, uint16, U16MOD, decodeU16, List.cons_append,
        List.getD_cons_zero, List.getD_cons_succ] at *
      omega
    refine ⟨hdec, ?_⟩
    show (sBlock s pad ++ rest).drop
        (alignedSize (2 + decodeU16 (sBlock s pad ++ rest) + 1)) = rest
    rw [hdec]
    have hblen : (sBlock s pad).length = alignedSize (2 + s.length + 1) := by
      simp only [sBlockLen, alignedSize, U32MOD, U16MOD, LOG_UNIT_PACKING] at hpad hlen ⊢
      simp only [sBlock, u16le, List.length_append, List.length_cons,
        List.length_singleton, List.length_nil]
      omega
    rw [show alignedSize (2 + s.length + 1) = (sBlock s pad).length from hblen.symm,
      List.drop_left]
  · intro d hd
    simp only [writeLockPacking, uint16, U16MOD, U32MOD, LOG_UNIT_PACKING] at *
    omega

theorem c9_string_length_witness :
    (1 : Nat) < U16MOD ∧
    (decodeU16 (sBlock [107] [] ++ [9, 9]) = 1 ∧
     (parseString (sBlock [107] [] ++ [9, 9])).2 = [9, 9]) :=
  ⟨by decide, c9_string_length_truncation.2.1 [107] [] [9, 9] (by decide) (by decide)⟩
